import Mathlib

/-!
Verification development for the OCR document-reconstruction core of the
Advanced-OCR-mistral-services repository (src/app.py).

The driver `process_pdf` in src/app.py normalizes an unwrapped OCR response
container into a page list, extracts per-page text, optionally injects a
title heading on page 1, and assembles a Markdown document; `create_docx`
and the results section of `main` handle the DOCX artifact and downloads.
The helper module `mistral_ocr` (`extract_from_page`, `build_markdown`,
`build_hybrid_docx`, `unwrap_container`) is not part of the repository
source, so those helpers are modelled from the specification and marked so
in their doc comments.
-/

namespace MistralOcr

/-- JSON-like values: the loosely-typed shape of the OCR response container
and of the page records inside it. -/
inductive JVal where
  | jnull : JVal
  | jbool : Bool → JVal
  | jnum : Int → JVal
  | jstr : String → JVal
  | jarr : List JVal → JVal
  | jobj : List (String × JVal) → JVal
  deriving Repr

/-- A container or page record: a mapping from string keys to values,
modelled as an association list (Python dict keys are unique; lookup takes
the first binding). -/
abbrev Container := List (String × JVal)

/-- `container.get(k)` of Python: first binding for `k`, if any. -/
def lookupField : Container → String → Option JVal
  | [], _ => none
  | (k, v) :: rest, key => if k = key then some v else lookupField rest key

/-- `isinstance(container.get(k), str)` guard plus the value: the field is
present and is a string. -/
def getStrField (c : Container) (k : String) : Option String :=
  match lookupField c k with
  | some (JVal.jstr s) => some s
  | _ => none

/-- The fixed fallback key order of src/app.py line 83. -/
def fallbackKeys : List String := ["markdown", "full_text", "content", "text", "raw_text"]

/-- Python `str.strip()`: drop leading and trailing whitespace, computed on
the character list so that concrete inputs evaluate. -/
def pyStrip (s : String) : String :=
  String.mk (((s.data.dropWhile Char.isWhitespace).reverse.dropWhile
    Char.isWhitespace).reverse)

/-- Embeds the fallback scan of `process_pdf` (src/app.py lines 82-86): the
first key in order whose value is a string with non-blank strip; the value
is returned unstripped, as in the source (`top = container[k]`). -/
def firstNonBlank : List String → Container → Option String
  | [], _ => none
  | k :: rest, c =>
    match getStrField c k with
    | some s => if pyStrip s ≠ "" then some s else firstNonBlank rest c
    | none => firstNonBlank rest c

/-- Error kinds of the core. `noContent` models the
`ValueError("No pages and no usable top-level text found in OCR response.")`
raised at src/app.py line 88, which the specification names `NoContentError`;
`docxBuild` models the failure of hybrid DOCX construction, which the
specification names `DocxBuildError`. -/
inductive OcrError where
  | noContent : OcrError
  | docxBuild : OcrError
  deriving Repr, DecidableEq

/-- The container has a usable pages sequence: `container.get("pages")` is a
list and it is non-empty (the negation of the guard at src/app.py line 80). -/
def hasUsablePages (c : Container) : Bool :=
  match lookupField c "pages" with
  | some (JVal.jarr ps) => !ps.isEmpty
  | _ => false

/-- Embeds the fallback branch of `process_pdf` (src/app.py lines 81-89):
synthesize one page record from the first non-blank fallback field, or fail. -/
def fallbackPages (c : Container) : Except OcrError (List JVal) :=
  match firstNonBlank fallbackKeys c with
  | some top => Except.ok [JVal.jobj [("markdown", JVal.jstr top)]]
  | none => Except.error OcrError.noContent

/-- Embeds the normalization step of `process_pdf` (src/app.py lines 78-89):
use the container's `pages` value when it is a non-empty list, otherwise
fall back to the top-level text scan. -/
def normalizePages (c : Container) : Except OcrError (List JVal) :=
  match lookupField c "pages" with
  | some (JVal.jarr ps) => if ps.isEmpty then fallbackPages c else Except.ok ps
  | _ => fallbackPages c

/-- Modelled from the spec: one piece of a nested OCR-block list, as consumed
by `mistral_ocr.extract_from_page` whose source is not in the repository
(spec §4.2: pieces are "concatenated in order"). A string piece contributes
itself; a mapping piece contributes its `text` string field; anything else
contributes nothing. -/
def blockPiece (b : JVal) : String :=
  match b with
  | JVal.jstr s => s
  | JVal.jobj fs => (getStrField fs "text").getD ""
  | _ => ""

/-- Modelled from the spec: `mistral_ocr.extract_from_page`, called at
src/app.py line 94 but absent from the repository source. Spec §4.2 fixes the
field precedence: prefer a `markdown` string field, then `text`, then
`content`, then a nested OCR-block list (here: the `blocks` field) whose
pieces are concatenated in order; a record lacking all recognized fields
yields the empty string rather than raising. -/
def extract_from_page (fs : Container) : String :=
  match getStrField fs "markdown" with
  | some s => s
  | none =>
    match getStrField fs "text" with
    | some s => s
    | none =>
      match getStrField fs "content" with
      | some s => s
      | none =>
        match lookupField fs "blocks" with
        | some (JVal.jarr bs) => String.join (bs.map blockPiece)
        | _ => ""

/-- Embeds src/app.py line 94: a non-mapping page record is replaced by the
empty mapping before extraction (`p if isinstance(p, dict) else {}`), and a
falsy result becomes the empty string (`or ""`, the identity here since the
modelled extractor already returns a string). -/
def pageTextOf (p : JVal) : String :=
  match p with
  | JVal.jobj fs => extract_from_page fs
  | _ => extract_from_page []

/-- The page record exposes at least one field recognized by the extractor. -/
def recognizedText (p : JVal) : Bool :=
  match p with
  | JVal.jobj fs =>
    (getStrField fs "markdown").isSome || (getStrField fs "text").isSome ||
    (getStrField fs "content").isSome ||
    (match lookupField fs "blocks" with
     | some (JVal.jarr _) => true
     | _ => false)
  | _ => false

/-- Python truthiness of the optional title (src/app.py line 95, `if title`):
present and a non-empty string. -/
def titleTruthy : Option String → Bool
  | some t => !t.isEmpty
  | none => false

/-- Embeds the extraction loop of `process_pdf` (src/app.py lines 92-97),
with `i` the 1-based page counter of `enumerate(pages, start=1)`: extract
each page's text, and prepend the level-1 title heading on page 1 when the
title is truthy. -/
def pagesTextAux (title : Option String) : Nat → List JVal → List String
  | _, [] => []
  | i, p :: rest =>
    let txt := pageTextOf p
    let txt2 := if titleTruthy title && i == 1 then
        "# " ++ title.getD "" ++ "\n\n" ++ txt
      else txt
    txt2 :: pagesTextAux title (i + 1) rest

/-- The Page Text sequence produced by the loop of src/app.py lines 92-97. -/
def pagesText (title : Option String) (pages : List JVal) : List String :=
  pagesTextAux title 1 pages

/-- One emitted piece of the assembled Markdown document: verbatim page text,
an image reference, or the page-break marker. -/
inductive MdChunk where
  | text : String → MdChunk
  | imageRef : String → MdChunk
  | pageBreak : MdChunk
  deriving Repr, DecidableEq

/-- The explicit page-break marker of the assembled Markdown (spec §4.4: "a
horizontal rule or raw page-break directive, consistently chosen"). -/
def pageBreakMarker : String := "\n\n---\n\n"

/-- Render one chunk to Markdown text; `w` is the maximum image display
width in tenths of an inch, a rendering hint attached to image references. -/
def renderChunk (w : Nat) : MdChunk → String
  | MdChunk.text s => s
  | MdChunk.imageRef s => "<img src=\"" ++ s ++ "\" width=\"" ++ toString w ++ "\">"
  | MdChunk.pageBreak => pageBreakMarker

/-- Modelled from the spec: the chunk stream of `mistral_ocr.build_markdown`
(called at src/app.py lines 100-106 but absent from the repository source).
Spec §4.4: for each page in order emit its text verbatim, then that page's
image and crop references, and, when page-break insertion is enabled and the
page is not the last, the explicit page-break marker. `i` is the 1-based page
number keying the asset maps. -/
def mdChunksAux (ins : Bool) (imgs crops : Nat → List String) :
    Nat → List String → List MdChunk
  | _, [] => []
  | i, t :: rest =>
    MdChunk.text t ::
      ((imgs i ++ crops i).map MdChunk.imageRef ++
       (if ins && !rest.isEmpty then [MdChunk.pageBreak] else []) ++
       mdChunksAux ins imgs crops (i + 1) rest)

/-- The chunk stream of the whole document, starting at page 1. -/
def mdChunks (pt : List String) (imgs crops : Nat → List String) (ins : Bool) :
    List MdChunk :=
  mdChunksAux ins imgs crops 1 pt

/-- Modelled from the spec: `mistral_ocr.build_markdown` (spec §4.4) — one
Markdown string for the whole document, the concatenation of the rendered
chunk stream. -/
def build_markdown (pt : List String) (imgs crops : Nat → List String)
    (ins : Bool) (w : Nat) : String :=
  String.join ((mdChunks pt imgs crops ins).map (renderChunk w))

/-- Number of page-break markers in a chunk stream. -/
def countPageBreaks : List MdChunk → Nat
  | [] => 0
  | MdChunk.pageBreak :: rest => countPageBreaks rest + 1
  | _ :: rest => countPageBreaks rest

/-- The result record of `process_pdf` (src/app.py lines 108-113), without
the raw response echo. -/
structure ProcessResult where
  pages_text : List String
  md_text : String
  num_pages : Nat
  deriving Repr, DecidableEq

/-- Embeds `process_pdf` (src/app.py lines 58-113) from the point where the
OCR response has been fetched and unwrapped: the input is the unwrapped
container. The network call and `mistral_ocr.unwrap_container` are outside
this model; the app passes empty asset maps (text-only mode) and an image
width of 6.5 inches, modelled as 65 tenths. -/
def process_pdf (container : Container) (title : Option String)
    (insertPageBreaks : Bool) : Except OcrError ProcessResult :=
  match normalizePages container with
  | Except.error e => Except.error e
  | Except.ok pages =>
    let pt := pagesText title pages
    Except.ok
      { pages_text := pt
        md_text := build_markdown pt (fun _ => []) (fun _ => []) insertPageBreaks 65
        num_pages := pages.length }

/-- An in-memory file system: association of paths to file contents, used to
give the DOCX builder's file effects an explicit state. -/
abbrev FileSys := List (String × String)

/-- Content at a path, if a file exists there. -/
def readFile : FileSys → String → Option String
  | [], _ => none
  | (k, v) :: rest, p => if k = p then some v else readFile rest p

/-- Remove any file at the path. -/
def removeFile (fs : FileSys) (p : String) : FileSys :=
  fs.filter (fun kv => !(kv.1 == p))

/-- Write (create or overwrite) the file at the path. -/
def writeFile (fs : FileSys) (p c : String) : FileSys :=
  (p, c) :: removeFile fs p

/-- Atomically move the file at `src` to `dst` (no-op when `src` is absent). -/
def moveFile (fs : FileSys) (src dst : String) : FileSys :=
  match readFile fs src with
  | some c => writeFile (removeFile fs src) dst c
  | none => fs

/-- Outcome of rendering the hybrid document in memory: full success with the
final bytes, or a failure part-way through, with whatever bytes had been
produced before the failure (e.g. on a corrupt image blob). -/
inductive RenderOutcome where
  | ok : String → RenderOutcome
  | fail : String → RenderOutcome
  deriving Repr, DecidableEq

/-- Modelled from the spec: `mistral_ocr.build_hybrid_docx`, called at
src/app.py lines 121-129 but absent from the repository source. Spec §4.5:
write to a temporary location and atomically move into place on full
success; on unrecoverable failure raise `DocxBuildError`, leave no artifact
at the destination, and clean up the temporary file (spec §5). The rendering
itself is abstracted by `outcome`. Returns the error or success together
with the resulting file system. -/
def build_hybrid_docx (outcome : RenderOutcome) (tmpPath outPath : String)
    (fs : FileSys) : Except OcrError Unit × FileSys :=
  match outcome with
  | RenderOutcome.ok c =>
    let fs1 := writeFile fs tmpPath c
    (Except.ok (), moveFile fs1 tmpPath outPath)
  | RenderOutcome.fail junk =>
    let fs1 := writeFile fs tmpPath junk
    (Except.error OcrError.docxBuild, removeFile fs1 tmpPath)

/-- Embeds `create_docx` (src/app.py lines 115-131): build the hybrid DOCX at
`output_dir / "output.docx"`; the temporary location is chosen next to it. -/
def create_docx (outcome : RenderOutcome) (outputDir : String) (fs : FileSys) :
    Except OcrError String × FileSys :=
  let docxPath := outputDir ++ "/output.docx"
  let r := build_hybrid_docx outcome (docxPath ++ ".part") docxPath fs
  (r.1.map (fun _ => docxPath), r.2)

/-- A download offered by the results section of `main`. -/
inductive Offer where
  | downloadMarkdown : Offer
  | downloadDocx : Offer
  deriving Repr, DecidableEq

/-- Embeds the results section of `main` (src/app.py lines 188-259): with the
Markdown already produced and held in session state, attempt the DOCX build;
on success offer both downloads, on failure catch the error and still offer
the Markdown download. In both branches the offered Markdown data is the
session's `md_text`, returned unchanged as the first component. -/
def results_section (md_text : String) (docxResult : Except OcrError String) :
    String × List Offer :=
  match docxResult with
  | Except.ok _ => (md_text, [Offer.downloadMarkdown, Offer.downloadDocx])
  | Except.error _ => (md_text, [Offer.downloadMarkdown])

/-! Helper lemmas. -/

theorem normalize_eq_fallback (c : Container) (hp : hasUsablePages c = false) :
    normalizePages c = fallbackPages c := by
  unfold normalizePages
  unfold hasUsablePages at hp
  cases hE : lookupField c "pages" with
  | none => rfl
  | some v =>
    rw [hE] at hp
    cases v with
    | jarr ps =>
      simp only [Bool.not_eq_false'] at hp
      simp [hp]
    | jnull => rfl
    | jbool b => rfl
    | jnum n => rfl
    | jstr s => rfl
    | jobj fs => rfl

theorem firstNonBlank_first_match (c : Container) :
    ∀ (keys : List String) (v : String), firstNonBlank keys c = some v →
      ∃ pre k post, keys = pre ++ k :: post ∧ getStrField c k = some v ∧
        pyStrip v ≠ "" ∧ ∀ k' ∈ pre, ∀ s, getStrField c k' = some s → pyStrip s = ""
  | [], v, h => by simp [firstNonBlank] at h
  | k :: rest, v, h => by
    unfold firstNonBlank at h
    cases hk : getStrField c k with
    | some s =>
      rw [hk] at h
      have h2 : (if pyStrip s ≠ "" then some s else firstNonBlank rest c) = some v := h
      by_cases hs : pyStrip s ≠ ""
      · rw [if_pos hs] at h2
        have hv : s = v := Option.some.inj h2
        subst hv
        exact ⟨[], k, rest, rfl, hk, hs, by simp⟩
      · rw [if_neg hs] at h2
        obtain ⟨pre, k0, post, hkeys, hget, hvne, hpre⟩ :=
          firstNonBlank_first_match c rest v h2
        refine ⟨k :: pre, k0, post, by simp [hkeys], hget, hvne, ?_⟩
        intro k' hk' s' hs'
        rcases List.mem_cons.mp hk' with h1 | h1
        · subst h1
          rw [hk] at hs'
          have hss : s = s' := Option.some.inj hs'
          subst hss
          exact not_not.mp hs
        · exact hpre k' h1 s' hs'
    | none =>
      rw [hk] at h
      obtain ⟨pre, k0, post, hkeys, hget, hvne, hpre⟩ :=
        firstNonBlank_first_match c rest v h
      refine ⟨k :: pre, k0, post, by simp [hkeys], hget, hvne, ?_⟩
      intro k' hk' s' hs'
      rcases List.mem_cons.mp hk' with h1 | h1
      · subst h1; rw [hk] at hs'; exact absurd hs' (by simp)
      · exact hpre k' h1 s' hs'

theorem pagesTextAux_length (title : Option String) :
    ∀ (ps : List JVal) (i : Nat), (pagesTextAux title i ps).length = ps.length
  | [], _ => rfl
  | p :: rest, i => by
    simp [pagesTextAux, pagesTextAux_length title rest (i + 1)]

theorem pagesTextAux_ge_two (title : Option String) :
    ∀ (ps : List JVal) (i : Nat), 2 ≤ i →
      pagesTextAux title i ps = ps.map pageTextOf
  | [], _, _ => rfl
  | p :: rest, i, hi => by
    have h1 : (i == 1) = false := by
      simp only [beq_eq_false_iff_ne, ne_eq]
      omega
    simp [pagesTextAux, h1, pagesTextAux_ge_two title rest (i + 1) (by omega)]

theorem pagesTextAux_empty_title :
    ∀ (ps : List JVal) (i : Nat), pagesTextAux (some "") i ps = pagesTextAux none i ps
  | [], _ => rfl
  | p :: rest, i => by
    have h0 : titleTruthy (some "") = false := by decide
    have h1 : titleTruthy none = false := rfl
    simp [pagesTextAux, h0, h1, pagesTextAux_empty_title rest (i + 1)]

theorem countPageBreaks_append (a b : List MdChunk) :
    countPageBreaks (a ++ b) = countPageBreaks a + countPageBreaks b := by
  induction a with
  | nil => simp [countPageBreaks]
  | cons x rest ih =>
    cases x <;> simp [countPageBreaks, ih] <;> omega

theorem countPageBreaks_imageRefs (l : List String) :
    countPageBreaks (l.map MdChunk.imageRef) = 0 := by
  induction l with
  | nil => rfl
  | cons x rest ih => simp [countPageBreaks, ih]

theorem mdChunksAux_breaks_true (imgs crops : Nat → List String) :
    ∀ (pt : List String) (i : Nat), pt ≠ [] →
      countPageBreaks (mdChunksAux true imgs crops i pt) = pt.length - 1
  | [], _, h => absurd rfl h
  | [t], i, _ => by
    simp [mdChunksAux, countPageBreaks, countPageBreaks_append, countPageBreaks_imageRefs]
  | t :: t2 :: rest, i, _ => by
    have ih := mdChunksAux_breaks_true imgs crops (t2 :: rest) (i + 1) (by simp)
    have hstep : mdChunksAux true imgs crops i (t :: t2 :: rest)
        = MdChunk.text t :: ((imgs i ++ crops i).map MdChunk.imageRef ++
            [MdChunk.pageBreak] ++ mdChunksAux true imgs crops (i + 1) (t2 :: rest)) := rfl
    have htext : ∀ l, countPageBreaks (MdChunk.text t :: l) = countPageBreaks l :=
      fun l => rfl
    rw [hstep, htext, countPageBreaks_append, countPageBreaks_append,
      countPageBreaks_imageRefs, ih]
    simp [countPageBreaks]
    omega

theorem mdChunksAux_breaks_false (imgs crops : Nat → List String) :
    ∀ (pt : List String) (i : Nat),
      countPageBreaks (mdChunksAux false imgs crops i pt) = 0
  | [], _ => rfl
  | t :: rest, i => by
    simp [mdChunksAux, countPageBreaks, countPageBreaks_append,
      countPageBreaks_imageRefs, mdChunksAux_breaks_false imgs crops rest (i + 1)]

theorem readFile_write_self (fs : FileSys) (p c : String) :
    readFile (writeFile fs p c) p = some c := by
  simp [writeFile, readFile]

theorem readFile_remove_self (fs : FileSys) (p : String) :
    readFile (removeFile fs p) p = none := by
  induction fs with
  | nil => rfl
  | cons kv rest ih =>
    obtain ⟨k, v⟩ := kv
    unfold removeFile at *
    by_cases h : k = p
    · simp [List.filter_cons, h, ih]
    · simp [List.filter_cons, h, readFile, ih]

theorem readFile_remove_other (fs : FileSys) (p q : String) (h : q ≠ p) :
    readFile (removeFile fs p) q = readFile fs q := by
  induction fs with
  | nil => rfl
  | cons kv rest ih =>
    obtain ⟨k, v⟩ := kv
    unfold removeFile at *
    by_cases hk : k = p
    · subst hk
      simp [List.filter_cons, readFile, ih, Ne.symm h]
    · simp [List.filter_cons, hk, readFile, ih]

theorem readFile_write_other (fs : FileSys) (p q c : String) (h : q ≠ p) :
    readFile (writeFile fs p c) q = readFile fs q := by
  simp [writeFile, readFile, Ne.symm h, readFile_remove_other fs p q h]

/-! Claim theorems. -/

/-- C1: a container with no usable `pages` sequence (missing, not a list, or
empty) and every fallback top-level text field blank or absent makes
normalization fail with the no-content error, and `process_pdf` produces no
partial output (no Page Text, no Markdown): the whole result is the error. -/
theorem no_content_error (c : Container) (title : Option String) (ins : Bool)
    (hp : hasUsablePages c = false)
    (hf : firstNonBlank fallbackKeys c = none) :
    process_pdf c title ins = Except.error OcrError.noContent := by
  unfold process_pdf
  rw [normalize_eq_fallback c hp]
  unfold fallbackPages
  rw [hf]

/-- Witness for C1: a container whose `pages` is an empty list and whose only
fallback field is blank. -/
theorem no_content_error_witness :
    hasUsablePages [("pages", JVal.jarr []), ("markdown", JVal.jstr "   ")] = false ∧
    firstNonBlank fallbackKeys
      [("pages", JVal.jarr []), ("markdown", JVal.jstr "   ")] = none ∧
    process_pdf [("pages", JVal.jarr []), ("markdown", JVal.jstr "   ")]
      (some "T") true = Except.error OcrError.noContent :=
  ⟨rfl, rfl, no_content_error _ (some "T") true rfl rfl⟩

/-- C2: with no usable `pages` sequence but a non-blank fallback field, the
normalizer synthesizes exactly one page record under a `markdown` key holding
the scan's value; the scan picks the first non-blank string field in the
fixed order `markdown`, `full_text`, `content`, `text`, `raw_text` (every key
before the chosen one has no non-blank string value); in particular a
non-blank `markdown` field is always the one chosen. -/
theorem fallback_single_page (c : Container) (v : String)
    (hp : hasUsablePages c = false)
    (hv : firstNonBlank fallbackKeys c = some v) :
    normalizePages c = Except.ok [JVal.jobj [("markdown", JVal.jstr v)]] ∧
    (∃ pre k post, fallbackKeys = pre ++ k :: post ∧ getStrField c k = some v ∧
      pyStrip v ≠ "" ∧ ∀ k' ∈ pre, ∀ s, getStrField c k' = some s → pyStrip s = "") ∧
    (∀ m, getStrField c "markdown" = some m → pyStrip m ≠ "" → v = m) := by
  refine ⟨?_, firstNonBlank_first_match c fallbackKeys v hv, ?_⟩
  · rw [normalize_eq_fallback c hp]
    unfold fallbackPages
    rw [hv]
  · intro m hm hmne
    unfold fallbackKeys firstNonBlank at hv
    rw [hm] at hv
    have hv2 : (if pyStrip m ≠ "" then some m
        else firstNonBlank ["full_text", "content", "text", "raw_text"] c) = some v := hv
    rw [if_pos hmne] at hv2
    exact (Option.some.inj hv2).symm

/-- Witness for C2: a container with a blank `markdown`, a non-blank
`full_text` and a non-blank `text`: the synthesized page comes from
`full_text`, the first non-blank field in order. -/
theorem fallback_single_page_witness :
    hasUsablePages
      [("markdown", JVal.jstr " "), ("text", JVal.jstr "T"),
       ("full_text", JVal.jstr "F")] = false ∧
    firstNonBlank fallbackKeys
      [("markdown", JVal.jstr " "), ("text", JVal.jstr "T"),
       ("full_text", JVal.jstr "F")] = some "F" ∧
    (normalizePages
        [("markdown", JVal.jstr " "), ("text", JVal.jstr "T"),
         ("full_text", JVal.jstr "F")]
        = Except.ok [JVal.jobj [("markdown", JVal.jstr "F")]] ∧
      (∃ pre k post, fallbackKeys = pre ++ k :: post ∧
        getStrField
          [("markdown", JVal.jstr " "), ("text", JVal.jstr "T"),
           ("full_text", JVal.jstr "F")] k = some "F" ∧
        pyStrip "F" ≠ "" ∧ ∀ k' ∈ pre, ∀ s,
          getStrField
            [("markdown", JVal.jstr " "), ("text", JVal.jstr "T"),
             ("full_text", JVal.jstr "F")] k' = some s → pyStrip s = "") ∧
      (∀ m, getStrField
          [("markdown", JVal.jstr " "), ("text", JVal.jstr "T"),
           ("full_text", JVal.jstr "F")] "markdown" = some m →
        pyStrip m ≠ "" → "F" = m)) :=
  ⟨rfl, rfl, fallback_single_page _ "F" rfl rfl⟩

/-- C3: a container whose `pages` value is a non-empty list yields a
successful result whose Page Text sequence has exactly one entry per page
record, in order (its length equals the number of page records, and
`num_pages` agrees); no page is dropped, whatever its extracted text. -/
theorem page_count_preserved (c : Container) (ps : List JVal)
    (hE : lookupField c "pages" = some (JVal.jarr ps)) (hne : ps ≠ [])
    (title : Option String) (ins : Bool) :
    ∃ r, process_pdf c title ins = Except.ok r ∧
      r.pages_text = pagesText title ps ∧
      r.pages_text.length = ps.length ∧ r.num_pages = ps.length := by
  have hn : normalizePages c = Except.ok ps := by
    unfold normalizePages
    rw [hE]
    simp [hne]
  refine ⟨{ pages_text := pagesText title ps,
            md_text := build_markdown (pagesText title ps)
              (fun _ => []) (fun _ => []) ins 65,
            num_pages := ps.length }, ?_, rfl, ?_, rfl⟩
  · unfold process_pdf
    rw [hn]
  · exact pagesTextAux_length title ps 1

/-- Witness for C3: a two-page container whose second page record is
malformed (not a mapping) and contributes an empty string; both pages are
kept. -/
theorem page_count_preserved_witness :
    lookupField
        [("pages", JVal.jarr [JVal.jobj [("markdown", JVal.jstr "a")], JVal.jnull])]
        "pages"
      = some (JVal.jarr [JVal.jobj [("markdown", JVal.jstr "a")], JVal.jnull]) ∧
    ([JVal.jobj [("markdown", JVal.jstr "a")], JVal.jnull] : List JVal) ≠ [] ∧
    ∃ r, process_pdf
        [("pages", JVal.jarr [JVal.jobj [("markdown", JVal.jstr "a")], JVal.jnull])]
        none true = Except.ok r ∧
      r.pages_text = pagesText none
        [JVal.jobj [("markdown", JVal.jstr "a")], JVal.jnull] ∧
      r.pages_text.length
        = ([JVal.jobj [("markdown", JVal.jstr "a")], JVal.jnull] : List JVal).length ∧
      r.num_pages
        = ([JVal.jobj [("markdown", JVal.jstr "a")], JVal.jnull] : List JVal).length :=
  ⟨rfl, List.cons_ne_nil _ _,
    page_count_preserved
      [("pages", JVal.jarr [JVal.jobj [("markdown", JVal.jstr "a")], JVal.jnull])]
      [JVal.jobj [("markdown", JVal.jstr "a")], JVal.jnull]
      rfl (List.cons_ne_nil _ _) none true⟩

/-- C4: with a provided (non-empty) title `t` and a non-empty page list, the
first entry of the Page Text sequence is a level-1 heading holding exactly
`t`, a blank line, and the original page-1 text; every later entry is the
unchanged extracted text, identical to what the untitled run produces. -/
theorem title_injection (t : String) (ht : t ≠ "") (p : JVal) (ps : List JVal) :
    pagesText (some t) (p :: ps)
        = ("# " ++ t ++ "\n\n" ++ pageTextOf p) :: ps.map pageTextOf ∧
    pagesText none (p :: ps) = pageTextOf p :: ps.map pageTextOf := by
  constructor
  · have hie : t.isEmpty = false := by
      cases hE : t.isEmpty with
      | false => rfl
      | true => exact absurd ((String.isEmpty_iff t).mp hE) ht
    have htt : titleTruthy (some t) = true := by
      simp only [titleTruthy]
      rw [hie]
      rfl
    unfold pagesText pagesTextAux
    simp [htt, pagesTextAux_ge_two (some t) ps 2 (le_refl 2)]
  · have htt : titleTruthy none = false := rfl
    unfold pagesText pagesTextAux
    simp [htt, pagesTextAux_ge_two none ps 2 (le_refl 2)]

/-- Witness for C4: a two-page document with title `"Report"`. -/
theorem title_injection_witness :
    ("Report" : String) ≠ "" ∧
    (pagesText (some "Report")
        [JVal.jobj [("markdown", JVal.jstr "Intro")],
         JVal.jobj [("markdown", JVal.jstr "End")]]
        = ["# Report\n\nIntro", "End"] ∧
      pagesText none
        [JVal.jobj [("markdown", JVal.jstr "Intro")],
         JVal.jobj [("markdown", JVal.jstr "End")]]
        = ["Intro", "End"]) := by
  refine ⟨by decide, ?_⟩
  have h := title_injection "Report" (by decide)
    (JVal.jobj [("markdown", JVal.jstr "Intro")])
    [JVal.jobj [("markdown", JVal.jstr "End")]]
  simpa [pageTextOf, extract_from_page, getStrField, lookupField] using h

/-- C5: page text extraction is total — it returns a string for every page
record, including non-mapping values — and a record exposing none of the
recognized fields yields the empty string. -/
theorem extract_never_fails (p : JVal) (h : recognizedText p = false) :
    pageTextOf p = "" := by
  cases p with
  | jnull => rfl
  | jbool b => rfl
  | jnum n => rfl
  | jstr s => rfl
  | jarr xs => rfl
  | jobj fs =>
    have h2 : ((getStrField fs "markdown").isSome || (getStrField fs "text").isSome ||
        (getStrField fs "content").isSome ||
        (match lookupField fs "blocks" with
         | some (JVal.jarr _) => true
         | _ => false)) = false := h
    clear h
    have hm : getStrField fs "markdown" = none := by
      cases hE : getStrField fs "markdown" with
      | none => rfl
      | some s => rw [hE] at h2; simp at h2
    rw [hm] at h2
    have htx : getStrField fs "text" = none := by
      cases hE : getStrField fs "text" with
      | none => rfl
      | some s => rw [hE] at h2; simp at h2
    rw [htx] at h2
    have hc : getStrField fs "content" = none := by
      cases hE : getStrField fs "content" with
      | none => rfl
      | some s => rw [hE] at h2; simp at h2
    rw [hc] at h2
    have hb : ∀ bs, lookupField fs "blocks" ≠ some (JVal.jarr bs) := by
      intro bs hE
      rw [hE] at h2
      simp at h2
    clear h2
    show (match getStrField fs "markdown" with
      | some s => s
      | none =>
        match getStrField fs "text" with
        | some s => s
        | none =>
          match getStrField fs "content" with
          | some s => s
          | none =>
            match lookupField fs "blocks" with
            | some (JVal.jarr bs) => String.join (bs.map blockPiece)
            | _ => "") = ""
    rw [hm, htx, hc]
    cases hE : lookupField fs "blocks" with
    | none => rfl
    | some v =>
      cases v with
      | jarr bs => exact absurd hE (hb bs)
      | jnull => rfl
      | jbool b => rfl
      | jnum n => rfl
      | jstr s => rfl
      | jobj g => rfl

/-- Witness for C5: a malformed page record (none of the recognized fields)
extracts to the empty string. -/
theorem extract_never_fails_witness :
    recognizedText (JVal.jobj [("foo", JVal.jnum 3), ("text", JVal.jnum 0)]) = false ∧
    pageTextOf (JVal.jobj [("foo", JVal.jnum 3), ("text", JVal.jnum 0)]) = "" :=
  ⟨rfl, extract_never_fails _ rfl⟩

/-- C6: the extractor's field precedence is fixed and deterministic: a
`markdown` string field always wins (in particular over a `text` field); with
no `markdown`, a `text` string field wins; then `content`; then the nested
OCR-block list, concatenated in order. -/
theorem field_precedence (fs : Container) :
    (∀ m, getStrField fs "markdown" = some m → extract_from_page fs = m) ∧
    (getStrField fs "markdown" = none →
      ∀ t, getStrField fs "text" = some t → extract_from_page fs = t) ∧
    (getStrField fs "markdown" = none → getStrField fs "text" = none →
      ∀ s, getStrField fs "content" = some s → extract_from_page fs = s) ∧
    (getStrField fs "markdown" = none → getStrField fs "text" = none →
      getStrField fs "content" = none →
      ∀ bs, lookupField fs "blocks" = some (JVal.jarr bs) →
        extract_from_page fs = String.join (bs.map blockPiece)) := by
  refine ⟨?_, ?_, ?_, ?_⟩
  · intro m hm
    unfold extract_from_page
    rw [hm]
  · intro h0 t htx
    unfold extract_from_page
    rw [h0, htx]
  · intro h0 h1 s hc
    unfold extract_from_page
    rw [h0, h1, hc]
  · intro h0 h1 h2 bs hb
    unfold extract_from_page
    rw [h0, h1, h2, hb]

/-- Witness for C6: a page record holding both `markdown` and `text` string
fields extracts to the `markdown` value. -/
theorem field_precedence_witness :
    getStrField [("text", JVal.jstr "T"), ("markdown", JVal.jstr "M")] "markdown"
      = some "M" ∧
    extract_from_page [("text", JVal.jstr "T"), ("markdown", JVal.jstr "M")] = "M" :=
  ⟨rfl, (field_precedence [("text", JVal.jstr "T"), ("markdown", JVal.jstr "M")]).1
    "M" rfl⟩

/-- C7: for a Page Text sequence of N pages with N > 1, the assembled
Markdown chunk stream carries exactly N − 1 page-break markers when page
breaks are enabled, and exactly zero when disabled; the count never depends
on page contents, so a page with empty text still contributes its marker. -/
theorem page_break_count (pt : List String) (imgs crops : Nat → List String)
    (h : 1 < pt.length) :
    countPageBreaks (mdChunks pt imgs crops true) = pt.length - 1 ∧
    countPageBreaks (mdChunks pt imgs crops false) = 0 := by
  refine ⟨mdChunksAux_breaks_true imgs crops pt 1 ?_,
    mdChunksAux_breaks_false imgs crops pt 1⟩
  intro he
  rw [he] at h
  simp at h

/-- Witness for C7: three pages with an empty middle page carry exactly two
markers with the toggle on and zero with it off. -/
theorem page_break_count_witness :
    1 < (["Intro", "", "End"] : List String).length ∧
    (countPageBreaks (mdChunks ["Intro", "", "End"]
        (fun _ => []) (fun _ => []) true)
        = (["Intro", "", "End"] : List String).length - 1 ∧
      countPageBreaks (mdChunks ["Intro", "", "End"]
        (fun _ => []) (fun _ => []) false) = 0) :=
  ⟨by decide, page_break_count ["Intro", "", "End"]
    (fun _ => []) (fun _ => []) (by decide)⟩

/-- C8: when hybrid DOCX construction fails, the builder reports the
build error and the destination path is exactly as before — no file appears
there and the partially-written temporary is cleaned up; on full success the
document is moved atomically into place at the destination. -/
theorem docx_build_atomic (fs : FileSys) (tmp out junk c : String)
    (hne : tmp ≠ out) :
    ((build_hybrid_docx (RenderOutcome.fail junk) tmp out fs).1
        = Except.error OcrError.docxBuild ∧
      readFile (build_hybrid_docx (RenderOutcome.fail junk) tmp out fs).2 out
        = readFile fs out ∧
      readFile (build_hybrid_docx (RenderOutcome.fail junk) tmp out fs).2 tmp
        = none) ∧
    ((build_hybrid_docx (RenderOutcome.ok c) tmp out fs).1 = Except.ok () ∧
      readFile (build_hybrid_docx (RenderOutcome.ok c) tmp out fs).2 out
        = some c) := by
  refine ⟨⟨rfl, ?_, ?_⟩, rfl, ?_⟩
  · show readFile (removeFile (writeFile fs tmp junk) tmp) out = readFile fs out
    rw [readFile_remove_other _ _ _ (Ne.symm hne),
      readFile_write_other _ _ _ _ (Ne.symm hne)]
  · exact readFile_remove_self _ _
  · show readFile (moveFile (writeFile fs tmp c) tmp out) out = some c
    unfold moveFile
    rw [readFile_write_self]
    exact readFile_write_self _ _ _

/-- Witness for C8: with distinct temporary and destination paths and a
pre-existing unrelated file, a failing build reports the error and leaves
the destination absent, while a succeeding build places the document. -/
theorem docx_build_atomic_witness :
    ("out.docx.part" : String) ≠ "out.docx" ∧
    (((build_hybrid_docx (RenderOutcome.fail "junk") "out.docx.part" "out.docx"
          [("other.md", "m")]).1 = Except.error OcrError.docxBuild ∧
      readFile (build_hybrid_docx (RenderOutcome.fail "junk") "out.docx.part"
          "out.docx" [("other.md", "m")]).2 "out.docx"
        = readFile [("other.md", "m")] "out.docx" ∧
      readFile (build_hybrid_docx (RenderOutcome.fail "junk") "out.docx.part"
          "out.docx" [("other.md", "m")]).2 "out.docx.part" = none) ∧
    ((build_hybrid_docx (RenderOutcome.ok "doc") "out.docx.part" "out.docx"
          [("other.md", "m")]).1 = Except.ok () ∧
      readFile (build_hybrid_docx (RenderOutcome.ok "doc") "out.docx.part"
          "out.docx" [("other.md", "m")]).2 "out.docx" = some "doc")) :=
  ⟨by decide, docx_build_atomic [("other.md", "m")] "out.docx.part" "out.docx"
    "junk" "doc" (by decide)⟩

/-- C9: in the results section, a DOCX build failure leaves the already
produced Markdown string unchanged and its download still offered; the
offered Markdown equals the stored one in every branch. -/
theorem markdown_survives_docx_failure (md : String) (e : OcrError) :
    (results_section md (Except.error e)).1 = md ∧
    Offer.downloadMarkdown ∈ (results_section md (Except.error e)).2 ∧
    ∀ r : Except OcrError String, (results_section md r).1 = md := by
  refine ⟨rfl, ?_, ?_⟩
  · simp [results_section]
  · intro r
    cases r with
    | ok p => rfl
    | error e2 => rfl

/-- C10: an empty title is falsy in the source's truthiness test, so the
whole conversion behaves exactly as with no title at all: same Page Text
sequence, same Markdown, same page count. -/
theorem empty_title_like_none (c : Container) (ins : Bool) :
    process_pdf c (some "") ins = process_pdf c none ins := by
  unfold process_pdf
  cases h : normalizePages c with
  | error e => rfl
  | ok pages => simp [pagesText, pagesTextAux_empty_title]

end MistralOcr
